import Mathlib

/-!
Shallow embedding of the disgustang notification monitor (src/main.rs).

The program watches a D-Bus session in monitor mode and maintains three
pieces of state inside `handle_msg`:
  * `buffer`   — the pending set (`Vec<Notification>`), pushed on Notify calls;
  * `history`  — the bounded finalized history (`Vec<Notification>` created
                 with `Vec::with_capacity(args.length)`);
  * `cached_icons` — the icon-cache index (`HashMap<String, i64>` from cache
                 path to reference count).
We additionally model the cache directory's durable storage as the list of
file paths currently existing on disk (`files`), since the code probes
`Path::exists`, writes via `Pixbuf::savev` and deletes via `remove_file`.

Machine integers: `serial` and `id` are `u32`, `urgency` is `u8`, the
reference counts are `i64`.  No arithmetic in the program can overflow any of
them on the inputs we consider (counts only move by ±1 starting from 0), so
they are modelled as `Nat`/`Int` directly.

External collaborators are modelled as parameters of an `Env` value:
  * `sha1_hex`   — the SHA-1 hex digest of the raw icon bytes (rust-crypto);
    the engine's behaviour depends only on it being a deterministic function
    of the byte content, so it is an arbitrary function here;
  * `lookup_icon` — themed icon lookup (freedesktop_icons), a pure external
    service returning a path or the empty string;
  * `cache_dir`  — the configured cache directory;
  * `cap`        — `args.length`, the capacity `Vec::with_capacity` gave the
    history vector (the code compares `history.len() == history.capacity()`).

Dynamically-typed D-Bus values reaching the handler are modelled by `DVal`;
the `TryFrom`/`Dict::get` conversions mirror zbus/zvariant 3.x semantics:
`String::try_from`, `u32::try_from`, `i32::try_from`, `bool::try_from` on a
`Value` succeed only on the exactly corresponding variant, and `Dict::get`
returns `Err(Error::IncorrectType)` when the stored value fails to downcast
to the requested type (and `Ok(None)` when the key is absent).

Rust panics (`unwrap` on `None`/`Err`, out-of-bounds `Vec` indexing) abort
the whole process; they are modelled by the `panicked` outcome, which stops
the event loop.  An `Err` returned from `handle_msg` is caught in `main`,
printed, and the loop continues: outcome `errored`, carrying the state at
the point of the early return (field-by-field struct evaluation means icon
side effects can land before a later field aborts the event).
-/

/-- A dynamically typed D-Bus value, as far as `handle_msg` inspects them. -/
inductive DVal where
  | vStr : String → DVal
  | vU32 : Nat → DVal
  | vU8 : Nat → DVal
  | vI32 : Int → DVal
  | vBool : Bool → DVal
  | vArr : List Nat → DVal
  | vDict : List (String × DVal) → DVal
  | vStruct : List DVal → DVal
  | vOther : DVal

/-- The `Notification` struct of the source, field for field
(`serial: u32`, `urgency: u8`, `id: u32`). -/
structure Notification where
  serial : Nat
  appname : String
  summary : String
  body : String
  icon : String
  urgency : Nat
  id : Nat
deriving DecidableEq, Repr

/-- The mutable state threaded through `handle_msg`, plus the modelled
on-disk contents of the cache directory. -/
structure EngineState where
  buffer : List Notification
  history : List Notification
  cached_icons : List (String × Int)
  files : List String
deriving DecidableEq, Repr

/-- External parameters of one run: the history capacity, the SHA-1 digest,
themed icon lookup (with the run's theme already applied), and the cache
directory path. -/
structure Env where
  cap : Nat
  sha1_hex : List Nat → String
  lookup_icon : String → String
  cache_dir : String

/-- Startup state: `main` creates empty `buffer`, `history`, `cached_icons`
and wipes every file from the cache directory before consuming traffic. -/
def initState : EngineState := ⟨[], [], [], []⟩

/-- Result of one `handle_msg` call: `done` is `Ok(())` with the new state
and the snapshot printed by `print_json`/`println!` (if any); `errored` is a
returned `Err` (reported by `main`, loop continues); `panicked` is a Rust
panic (process aborts). -/
inductive StepResult where
  | done : EngineState → Option (List Notification) → StepResult
  | errored : EngineState → StepResult
  | panicked : StepResult
deriving DecidableEq, Repr

/-- Models `String::try_from(value)`: succeeds only on `Value::Str`. -/
def stringTryFrom : DVal → Option String
  | .vStr s => some s
  | _ => none

/-- Models `u32::try_from(value)`: succeeds only on `Value::U32`. -/
def u32TryFrom : DVal → Option Nat
  | .vU32 n => some n
  | _ => none

/-- Models `i32::try_from(value)`: succeeds only on `Value::I32`. -/
def i32TryFrom : DVal → Option Int
  | .vI32 n => some n
  | _ => none

/-- Models `bool::try_from(value)`: succeeds only on `Value::Bool`. -/
def boolTryFrom : DVal → Option Bool
  | .vBool b => some b
  | _ => none

/-- Models `HashMap::get` on the icon-cache index (association list with unique
keys, preserved by construction). -/
def mapGet : List (String × Int) → String → Option Int
  | [], _ => none
  | (k, v) :: rest, key => if k == key then some v else mapGet rest key

/-- In-place update of the value stored under an existing key
(`*e -= 1` through `get_mut`). -/
def mapSet : List (String × Int) → String → Int → List (String × Int)
  | [], _, _ => []
  | (k, v) :: rest, key, newV =>
    if k == key then (k, newV) :: rest else (k, v) :: mapSet rest key newV

/-- Models `HashMap::remove`. -/
def mapRemove : List (String × Int) → String → List (String × Int)
  | [], _ => []
  | (k, v) :: rest, key => if k == key then rest else (k, v) :: mapRemove rest key

/-- Models the increment `*cached_icons.entry(path).or_insert(0) += 1`. -/
def mapIncr : List (String × Int) → String → List (String × Int)
  | [], key => [(key, 1)]
  | (k, v) :: rest, key =>
    if k == key then (k, v + 1) :: rest else (k, v) :: mapIncr rest key

/-- Models `remove_file(path)` on the modelled file system (a real path exists at
most once, so deletion removes every occurrence). -/
def fsRemove (fs : List String) (p : String) : List String :=
  fs.filter (fun q => ! (q == p))

/-- Models `Dict::get::<str, u8>(key)` with zvariant-3 semantics: `Ok(None)` when
the key is absent, `Err(IncorrectType)` when the stored value is not a `u8`
(used for the "urgency" hint). -/
def dictGetU8 : List (String × DVal) → String → Except Unit (Option Nat)
  | [], _ => .ok none
  | (k, v) :: rest, key =>
    if k == key then
      match v with
      | .vU8 n => .ok (some n)
      | _ => .error ()
    else dictGetU8 rest key

/-- Models `Dict::get::<str, Structure>(key)` with zvariant-3 semantics (used for
the "image-data" hint). -/
def dictGetStruct : List (String × DVal) → String → Except Unit (Option (List DVal))
  | [], _ => .ok none
  | (k, v) :: rest, key =>
    if k == key then
      match v with
      | .vStruct l => .ok (some l)
      | _ => .error ()
    else dictGetStruct rest key

/-- Models `iter_mut().find(p)` followed by a field assignment: update the first
element satisfying `p`. -/
def updateFirst (p : α → Bool) (f : α → α) : List α → List α
  | [] => []
  | x :: xs => if p x then f x :: xs else x :: updateFirst p f xs

/-- Models `v.remove(v.iter().position(p).unwrap())` when the position is known to
exist: drop the first element satisfying `p`. -/
def eraseFirstP (p : α → Bool) : List α → List α
  | [] => []
  | x :: xs => if p x then xs else x :: eraseFirstP p xs

/-- Result of resolving the `icon` field of a create event: a panic
(malformed image-data structure indexed out of bounds), an event error
(a failed `?` conversion), or the icon string together with the updated
cache index and cache-directory contents. -/
inductive IconRes where
  | panicked : IconRes
  | errored : IconRes
  | ok : String → List (String × Int) → List String → IconRes

/-- The `icon:` field initializer of the pushed `Notification` (main.rs
lines 85–131).  `dict` is `fields[6]`, `iconName` the already-extracted
`fields[2]` string (defaulted to "").  If the hints are a dict carrying
"image-data": hash the pixel bytes (`img_fields[6]`, treated as `&[]` when
not an array), derive the deterministic path `cache_dir/hash.png`; when no
such file exists yet, run the geometry conversions (each `?` on failure
aborts the event) and write the file; finally bump the path's reference
count and use the path.  Otherwise fall back to themed lookup. -/
def resolveIcon (env : Env) (cache : List (String × Int)) (files : List String)
    (dict : DVal) (iconName : String) : IconRes :=
  match dict with
  | .vDict entries =>
    match dictGetStruct entries "image-data" with
    | .error _ => .errored
    | .ok none => .ok (env.lookup_icon iconName) cache files
    | .ok (some imgFields) =>
      if imgFields.length < 7 then .panicked
      else
        let bytes := match imgFields.getD 6 .vOther with
          | .vArr a => a
          | _ => []
        let path := env.cache_dir ++ "/" ++ env.sha1_hex bytes ++ ".png"
        if files.contains path then
          .ok path (mapIncr cache path) files
        else
          match boolTryFrom (imgFields.getD 3 .vOther),
                i32TryFrom (imgFields.getD 4 .vOther),
                i32TryFrom (imgFields.getD 0 .vOther),
                i32TryFrom (imgFields.getD 1 .vOther),
                i32TryFrom (imgFields.getD 2 .vOther) with
          | some _, some _, some _, some _, some _ =>
            .ok path (mapIncr cache path) (path :: files)
          | _, _, _, _, _ => .errored
  | _ => .ok (env.lookup_icon iconName) cache files

/-- The `urgency:` field initializer (main.rs lines 132–139): default 1 when
the hints are not a dict or lack the key; an ill-typed value makes
`val.get("urgency")?` abort the event. -/
def extractUrgency (dict : DVal) : Except Unit Nat :=
  match dict with
  | .vDict entries =>
    match dictGetU8 entries "urgency" with
    | .error _ => .error ()
    | .ok (some i) => .ok i
    | .ok none => .ok 1
  | _ => .ok 1

/-- Create branch (any method call on org.freedesktop.Notifications,
main.rs lines 72–141).  `body.unwrap()` panics when the body failed to
decode; `fields[6]` panics when fewer than 7 positional arguments are
present; a missing serial returns an `Err` before any other field is
evaluated; the icon is resolved (with its cache side effects) before the
urgency is extracted, so an urgency abort keeps the icon side effects. -/
def handleCreate (env : Env) (st : EngineState) (serialNum : Option Nat)
    (bodyFields : Option (List DVal)) : StepResult :=
  match bodyFields with
  | none => .panicked
  | some fields =>
    if fields.length < 7 then .panicked
    else
      match serialNum with
      | none => .errored st
      | some sn =>
        match resolveIcon env st.cached_icons st.files (fields.getD 6 .vOther)
            ((stringTryFrom (fields.getD 2 .vOther)).getD "") with
        | .panicked => .panicked
        | .errored => .errored st
        | .ok icon cache' files' =>
          match extractUrgency (fields.getD 6 .vOther) with
          | .error _ => .errored { st with cached_icons := cache', files := files' }
          | .ok urg =>
            .done { st with
              buffer := st.buffer ++ [⟨sn,
                (stringTryFrom (fields.getD 0 .vOther)).getD "",
                (stringTryFrom (fields.getD 3 .vOther)).getD "",
                (stringTryFrom (fields.getD 4 .vOther)).getD "",
                icon, urg, 0⟩],
              cached_icons := cache', files := files' } none

/-- NotificationRemoveFromHistory branch (main.rs lines 144–168).
`body.unwrap()` and `fields[0]` panic on malformed messages;
`u32::try_from(fields[0])?` aborts the event on an ill-typed id; the
`find(..).unwrap()` panics when no history record carries the id.  On a
match: remove the record, decrement the path's count (deleting file and
entry when it reaches 0) — and then the source unconditionally removes the
index entry again (line 164) — and print the new history. -/
def handleRemove (st : EngineState) (bodyFields : Option (List DVal)) : StepResult :=
  match bodyFields with
  | none => .panicked
  | some fields =>
    match fields with
    | [] => .panicked
    | f :: _ =>
      match u32TryFrom f with
      | none => .errored st
      | some i =>
        match st.history.find? (fun x => x.id == i) with
        | none => .panicked
        | some r =>
          let icon_path := r.icon
          let history' := eraseFirstP (fun x => x.id == i) st.history
          let cf : List (String × Int) × List String :=
            match mapGet st.cached_icons icon_path with
            | none => (st.cached_icons, st.files)
            | some e =>
              if e - 1 ≤ 0 then
                (mapRemove (mapSet st.cached_icons icon_path (e - 1)) icon_path,
                 fsRemove st.files icon_path)
              else (mapSet st.cached_icons icon_path (e - 1), st.files)
          .done { st with history := history'
                          cached_icons := mapRemove cf.1 icon_path
                          files := cf.2 }
            (some history'.reverse)

/-- NotificationClearHistory branch (main.rs lines 169–181): drain buffer
and history, delete every indexed file, drain the index, print `[]`. -/
def handleClear (st : EngineState) : StepResult :=
  .done ⟨[], [], [],
    st.cached_icons.foldl (fun fs kv => fsRemove fs kv.1) st.files⟩ (some [])

/-- MethodReturn branch (main.rs lines 186–201): missing reply serial or an
undecodable body return `Ok` silently; an unmatched pending serial returns
`Ok` silently; on a match, `fields[0]` panics when the body is empty and
`u32::try_from(..).unwrap()` panics on an ill-typed id, else the id is
assigned in place. -/
def handleReturn (st : EngineState) (replySerial : Option Nat)
    (bodyFields : Option (List DVal)) : StepResult :=
  match replySerial with
  | none => .done st none
  | some rs =>
    match bodyFields with
    | none => .done st none
    | some fields =>
      match st.buffer.find? (fun x => x.serial == rs) with
      | none => .done st none
      | some _ =>
        match fields with
        | [] => .panicked
        | f :: _ =>
          match u32TryFrom f with
          | none => .panicked
          | some newId =>
            let buffer' := updateFirst (fun x => x.serial == rs)
              (fun n => { n with id := newId }) st.buffer
            .done { st with buffer := buffer' } none

/-- Signal branch (main.rs lines 202–226), member NotificationClosed.
`body.unwrap()` panics on an undecodable body.  The id conversion
(`u32::try_from(fields[0]).unwrap()`) sits inside the `find` closure, so it
only runs — and can only panic — when the buffer is non-empty.  On a match:
evict `history[0]` when the length equals the capacity (`Vec::remove(0)`
panics if the capacity is 0), append the record, drop it from the buffer,
and print the new history.  No match: `Ok` silently. -/
def handleClosed (env : Env) (st : EngineState) (member : Option String)
    (bodyFields : Option (List DVal)) : StepResult :=
  match member with
  | none => .done st none
  | some m =>
    if m == "NotificationClosed" then
      match bodyFields with
      | none => .panicked
      | some fields =>
        match st.buffer with
        | [] => .done st none
        | _ :: _ =>
          match fields with
          | [] => .panicked
          | f :: _ =>
            match u32TryFrom f with
            | none => .panicked
            | some cid =>
              match st.buffer.find? (fun x => x.id == cid) with
              | none => .done st none
              | some s =>
                let buffer' := eraseFirstP (fun x => x.id == s.id) st.buffer
                if st.history.length == env.cap then
                  match st.history with
                  | [] => .panicked
                  | _ :: hrest =>
                    .done { st with history := hrest ++ [s], buffer := buffer' }
                      (some (hrest ++ [s]).reverse)
                else
                  .done { st with history := st.history ++ [s], buffer := buffer' }
                    (some (st.history ++ [s]).reverse)
    else .done st none

/-- One classified bus message, carrying exactly what `handle_msg`
inspects: the message type, interface, member, the call serial, the
reply-target serial, and the decoded body (`none` when
`msg.body::<Structure>()` failed). -/
inductive Msg where
  | methodCall : Option String → Option String → Option Nat →
      Option (List DVal) → Msg
  | methodReturn : Option Nat → Option (List DVal) → Msg
  | signal : Option String → Option (List DVal) → Msg
  | otherKind : Msg

/-- The handler `handle_msg` (main.rs lines 58–230): dispatch on message type,
interface and member.  Any method call on org.freedesktop.Notifications is
treated as a create (the member filter lives in the bus subscription, not
here). -/
def handle_msg (env : Env) (st : EngineState) : Msg → StepResult
  | .methodCall iface member serialNum bodyFields =>
    match iface with
    | none => .done st none
    | some i =>
      if i == "org.freedesktop.Notifications" then
        handleCreate env st serialNum bodyFields
      else if i == "org.dunstproject.cmd0" then
        match member with
        | none => .done st none
        | some m =>
          if m == "NotificationRemoveFromHistory" then
            handleRemove st bodyFields
          else if m == "NotificationClearHistory" then
            handleClear st
          else .done st none
      else .done st none
  | .methodReturn replySerial bodyFields => handleReturn st replySerial bodyFields
  | .signal member bodyFields => handleClosed env st member bodyFields
  | .otherKind => .done st none

/-- Result of running the event loop on a message list: the final state and
the snapshots emitted in order, with `panicked` marking a run cut short by a
Rust panic (the state is the one at the panic point; later messages are
never processed). -/
inductive RunResult where
  | finished : EngineState → List (List Notification) → RunResult
  | panicked : EngineState → List (List Notification) → RunResult
deriving DecidableEq, Repr

/-- The event loop of `main`: process messages in order, report (and
survive) event errors, stop on a panic. -/
def runMsgs (env : Env) (st : EngineState) : List Msg → RunResult
  | [] => .finished st []
  | m :: rest =>
    match handle_msg env st m with
    | .panicked => .panicked st []
    | .errored st' =>
      match runMsgs env st' rest with
      | .finished s es => .finished s es
      | .panicked s es => .panicked s es
    | .done st' e =>
      match runMsgs env st' rest with
      | .finished s es => .finished s (e.toList ++ es)
      | .panicked s es => .panicked s (e.toList ++ es)

/-- The states reached after each processed message (stopping at a panic). -/
def runStates (env : Env) (st : EngineState) : List Msg → List EngineState
  | [] => []
  | m :: rest =>
    match handle_msg env st m with
    | .panicked => []
    | .errored st' => st' :: runStates env st' rest
    | .done st' _ => st' :: runStates env st' rest

/-- A well-shaped Notify call carrying no raw image payload (hints argument
not a dict), with the given serial, app name, icon name, summary and body. -/
def notifyMsg (sn : Nat) (an ic sm bd : String) : Msg :=
  .methodCall (some "org.freedesktop.Notifications") (some "Notify") (some sn)
    (some [.vStr an, .vU32 0, .vStr ic, .vStr sm, .vStr bd, .vOther, .vOther, .vI32 0])

/-- A well-shaped Notify call whose hints carry raw image-data with the
given pixel bytes (1x1 RGB geometry, well-typed). -/
def notifyRawMsg (sn : Nat) (an ic sm bd : String) (bytes : List Nat) : Msg :=
  .methodCall (some "org.freedesktop.Notifications") (some "Notify") (some sn)
    (some [.vStr an, .vU32 0, .vStr ic, .vStr sm, .vStr bd, .vOther,
      .vDict [("image-data", .vStruct
        [.vI32 1, .vI32 1, .vI32 3, .vBool false, .vI32 8, .vI32 3, .vArr bytes])],
      .vI32 0])

/-- A method return replying to serial `sn` with notification id `i`. -/
def returnMsg (sn i : Nat) : Msg := .methodReturn (some sn) (some [.vU32 i])

/-- A NotificationClosed signal carrying id `i`. -/
def closedMsg (i : Nat) : Msg := .signal (some "NotificationClosed") (some [.vU32 i])

/-- A NotificationRemoveFromHistory call carrying id `i`. -/
def removeMsg (i : Nat) : Msg :=
  .methodCall (some "org.dunstproject.cmd0") (some "NotificationRemoveFromHistory")
    (some 90) (some [.vU32 i])

/-- A NotificationClearHistory call. -/
def clearMsg : Msg :=
  .methodCall (some "org.dunstproject.cmd0") (some "NotificationClearHistory")
    (some 91) none

/-- A concrete environment for closed evaluations: history capacity `n`,
constant digest, themed lookup always failing, cache directory "c". -/
def envCap (n : Nat) : Env := ⟨n, fun _ => "H", fun _ => "", "c"⟩

/-- Membership in the modelled file deletion. -/
theorem mem_fsRemove {fs : List String} {p q : String} :
    q ∈ fsRemove fs p ↔ q ∈ fs ∧ ¬ q = p := by
  simp [fsRemove, List.mem_filter]

/-- Membership after deleting every indexed file (the NotificationClearHistory
loop): survivors were present before and match no index key. -/
theorem mem_foldl_fsRemove {m : List (String × Int)} {fs : List String} {q : String}
    (h : q ∈ m.foldl (fun acc kv => fsRemove acc kv.1) fs) :
    q ∈ fs ∧ ∀ kv ∈ m, ¬ q = kv.1 := by
  induction m generalizing fs with
  | nil => simpa using h
  | cons kv rest ih =>
    simp only [List.foldl_cons] at h
    obtain ⟨h1, h2⟩ := ih h
    rw [mem_fsRemove] at h1
    refine ⟨h1.1, ?_⟩
    intro kv' hkv'
    rcases List.mem_cons.mp hkv' with h' | h'
    · subst h'; exact h1.2
    · exact h2 kv' h'

/-- A successful index lookup means the key is one of the entries. -/
theorem mapGet_key_mem {m : List (String × Int)} {p : String} {c : Int}
    (h : mapGet m p = some c) : ∃ kv ∈ m, kv.1 = p := by
  induction m with
  | nil => simp [mapGet] at h
  | cons kv rest ih =>
    obtain ⟨k, v⟩ := kv
    rw [mapGet] at h
    split at h
    · next hk => exact ⟨(k, v), List.mem_cons_self _ _, beq_iff_eq.mp hk⟩
    · next hk =>
      obtain ⟨kv', hmem, hp⟩ := ih h
      exact ⟨kv', List.mem_cons_of_mem _ hmem, hp⟩

/-- Removing an absent key from the index is a no-op. -/
theorem mapRemove_eq_of_get_none {m : List (String × Int)} {p : String}
    (h : mapGet m p = none) : mapRemove m p = m := by
  induction m with
  | nil => rfl
  | cons kv rest ih =>
    obtain ⟨k, v⟩ := kv
    rw [mapGet] at h
    rw [mapRemove]
    split at h
    · exact absurd h (by simp)
    · next hk => rw [if_neg hk, ih h]

/-- C6: after every clear-all event the Pending Set (buffer), History and
the Icon Cache index are empty, every path recorded in the index has been
deleted from storage, and the empty snapshot is emitted. -/
theorem clear_total (env : Env) (st : EngineState) (sn : Option Nat)
    (bf : Option (List DVal)) :
    handle_msg env st (.methodCall (some "org.dunstproject.cmd0")
        (some "NotificationClearHistory") sn bf)
      = .done ⟨[], [], [], st.cached_icons.foldl (fun fs kv => fsRemove fs kv.1) st.files⟩
          (some [])
    ∧ ∀ p c, mapGet st.cached_icons p = some c →
        ¬ p ∈ st.cached_icons.foldl (fun fs kv => fsRemove fs kv.1) st.files := by
  constructor
  · simp [handle_msg, handleClear]
  · intro p c hget hmem
    obtain ⟨kv, hkv, hp⟩ := mapGet_key_mem hget
    exact (mem_foldl_fsRemove hmem).2 kv hkv hp.symm

/-- Witness for C6 at a concrete state: one cached file plus one unrelated
file; clear empties everything and deletes exactly the indexed file. -/
theorem clear_total_witness :
    handle_msg (envCap 2) ⟨[], [], [("c/A.png", 1)], ["c/A.png", "keep.png"]⟩
        (.methodCall (some "org.dunstproject.cmd0") (some "NotificationClearHistory")
          (some 91) none)
      = .done ⟨[], [], [], ["keep.png"]⟩ (some [])
    ∧ ¬ "c/A.png" ∈ (["keep.png"] : List String) :=
  ⟨(clear_total (envCap 2) ⟨[], [], [("c/A.png", 1)], ["c/A.png", "keep.png"]⟩
      (some 91) none).1,
   (clear_total (envCap 2) ⟨[], [], [("c/A.png", 1)], ["c/A.png", "keep.png"]⟩
      (some 91) none).2 "c/A.png" 1 rfl⟩

/-- C7: a method return whose reply-target serial matches no pending entry,
and a NotificationClosed signal whose id matches no pending entry, leave the
whole state unchanged and emit nothing. -/
theorem unmatched_events_noop (env : Env) (st : EngineState) :
    (∀ rs bf, st.buffer.find? (fun x => x.serial == rs) = none →
      handle_msg env st (.methodReturn (some rs) bf) = .done st none)
    ∧ (∀ f fs cid, u32TryFrom f = some cid →
        st.buffer.find? (fun x => x.id == cid) = none →
        handle_msg env st (.signal (some "NotificationClosed") (some (f :: fs)))
          = .done st none) := by
  constructor
  · intro rs bf h
    cases bf with
    | none => simp [handle_msg, handleReturn]
    | some fields => simp [handle_msg, handleReturn, h]
  · intro f fs cid hf hfind
    cases hb : st.buffer with
    | nil => simp [handle_msg, handleClosed, hb]
    | cons b bs =>
      rw [hb] at hfind
      simp [handle_msg, handleClosed, hb, hf, hfind]

/-- Witness for C7: one pending notification with serial 1 and id 0; a
return targeting serial 5 and a close for id 9 are both no-ops. -/
theorem unmatched_events_noop_witness :
    handle_msg (envCap 2) ⟨[⟨1, "", "", "", "", 1, 0⟩], [], [], []⟩
        (.methodReturn (some 5) (some [.vU32 9]))
      = .done ⟨[⟨1, "", "", "", "", 1, 0⟩], [], [], []⟩ none
    ∧ handle_msg (envCap 2) ⟨[⟨1, "", "", "", "", 1, 0⟩], [], [], []⟩
        (.signal (some "NotificationClosed") (some [.vU32 9]))
      = .done ⟨[⟨1, "", "", "", "", 1, 0⟩], [], [], []⟩ none :=
  ⟨(unmatched_events_noop (envCap 2) ⟨[⟨1, "", "", "", "", 1, 0⟩], [], [], []⟩).1
      5 (some [.vU32 9]) rfl,
   (unmatched_events_noop (envCap 2) ⟨[⟨1, "", "", "", "", 1, 0⟩], [], [], []⟩).2
      (.vU32 9) [] 9 rfl rfl⟩

/-- Create events never print a snapshot. -/
theorem handleCreate_no_emit (env : Env) (st : EngineState) (sn : Option Nat)
    (bf : Option (List DVal)) (st' : EngineState) (em : List Notification) :
    handleCreate env st sn bf = .done st' (some em) → False := by
  unfold handleCreate
  intro h
  repeat' split at h
  all_goals simp_all

/-- Method returns never print a snapshot. -/
theorem handleReturn_no_emit (st : EngineState) (rs : Option Nat)
    (bf : Option (List DVal)) (st' : EngineState) (em : List Notification) :
    handleReturn st rs bf = .done st' (some em) → False := by
  unfold handleReturn
  intro h
  repeat' split at h
  all_goals simp_all

/-- A remove-from-history snapshot is the reverse of the new history. -/
theorem handleRemove_emit (st : EngineState) (bf : Option (List DVal))
    (st' : EngineState) (em : List Notification) :
    handleRemove st bf = .done st' (some em) → em = st'.history.reverse := by
  unfold handleRemove
  intro h
  repeat' split at h
  all_goals try simp_all
  all_goals
    (obtain ⟨h1, h2⟩ := h
     subst h1
     subst h2
     simp)

/-- The clear-history snapshot is the reverse of the (empty) new history. -/
theorem handleClear_emit (st : EngineState) (st' : EngineState)
    (em : List Notification) :
    handleClear st = .done st' (some em) → em = st'.history.reverse := by
  intro h
  unfold handleClear at h
  rw [StepResult.done.injEq] at h
  obtain ⟨h1, h2⟩ := h
  subst h1
  simp_all

/-- A close snapshot is the reverse of the new history. -/
theorem handleClosed_emit (env : Env) (st : EngineState) (mem : Option String)
    (bf : Option (List DVal)) (st' : EngineState) (em : List Notification) :
    handleClosed env st mem bf = .done st' (some em) → em = st'.history.reverse := by
  unfold handleClosed
  intro h
  repeat' split at h
  all_goals try simp_all
  all_goals
    (obtain ⟨h1, h2⟩ := h
     subst h1
     subst h2
     simp)

/-- C8: every printed snapshot is exactly the reverse of History's insertion
order (newest first); concretely, closing records A, B, C in that order with
capacity 3 emits [A], then [B, A], then [C, B, A]. -/
theorem newest_first_emission :
    (∀ (env : Env) (st : EngineState) (msg : Msg) (st' : EngineState)
        (em : List Notification),
      handle_msg env st msg = .done st' (some em) → em = st'.history.reverse)
    ∧ runMsgs (envCap 3) initState
        [notifyMsg 1 "A" "" "" "", returnMsg 1 1, notifyMsg 2 "B" "" "" "",
         returnMsg 2 2, notifyMsg 3 "C" "" "" "", returnMsg 3 3,
         closedMsg 1, closedMsg 2, closedMsg 3]
        = .finished ⟨[], [⟨1, "A", "", "", "", 1, 1⟩, ⟨2, "B", "", "", "", 1, 2⟩,
            ⟨3, "C", "", "", "", 1, 3⟩], [], []⟩
          [[⟨1, "A", "", "", "", 1, 1⟩],
           [⟨2, "B", "", "", "", 1, 2⟩, ⟨1, "A", "", "", "", 1, 1⟩],
           [⟨3, "C", "", "", "", 1, 3⟩, ⟨2, "B", "", "", "", 1, 2⟩,
            ⟨1, "A", "", "", "", 1, 1⟩]] := by
  constructor
  · intro env st msg st' em h
    cases msg with
    | methodCall iface mem sn bf =>
      unfold handle_msg at h
      repeat' split at h
      all_goals
        first
        | exact (handleCreate_no_emit _ _ _ _ _ _ h).elim
        | exact handleRemove_emit _ _ _ _ h
        | exact handleClear_emit _ _ _ h
        | simp_all
    | methodReturn rs bf => exact (handleReturn_no_emit _ _ _ _ _ h).elim
    | signal mem bf => exact handleClosed_emit _ _ _ _ _ _ h
    | otherKind => simp [handle_msg] at h
  · rfl

/-- Witness for C8: clear-all on the empty state emits [], the reverse of
the resulting empty history. -/
theorem newest_first_emission_witness :
    ([] : List Notification) = (initState.history).reverse :=
  newest_first_emission.1 (envCap 1) initState clearMsg initState [] rfl

/-- Shared shape of the close-at-capacity transition: the head of History
(the earliest-arrived record) is evicted, the closed record is appended, the
buffer loses the record, and the cache index and files are untouched. -/
theorem closed_at_capacity_step (env : Env) (st : EngineState) (f : DVal)
    (fs : List DVal) (cid : Nat) (r h0 : Notification) (hrest : List Notification)
    (hf : u32TryFrom f = some cid)
    (hfind : st.buffer.find? (fun x => x.id == cid) = some r)
    (hhist : st.history = h0 :: hrest)
    (hcap : st.history.length = env.cap) :
    handle_msg env st (.signal (some "NotificationClosed") (some (f :: fs)))
      = .done ⟨eraseFirstP (fun x => x.id == r.id) st.buffer, hrest ++ [r],
          st.cached_icons, st.files⟩
        (some (hrest ++ [r]).reverse) := by
  cases hb : st.buffer with
  | nil => rw [hb] at hfind; simp at hfind
  | cons b bs =>
    rw [hb] at hfind
    have hcap2 : hrest.length + 1 = env.cap := by
      rw [hhist] at hcap; simpa using hcap
    simp [handle_msg, handleClosed, hb, hf, hfind, hhist, hcap2]

/-- C9: a NotificationClosed signal that finalizes a record while History is
at capacity evicts the head of History and appends the new record, but
leaves the icon-cache index and the cache directory contents untouched: the
evicted record's icon keeps its entry, count and backing file. -/
theorem eviction_cache_frame (env : Env) (st : EngineState) (f : DVal)
    (fs : List DVal) (cid : Nat) (r h0 : Notification) (hrest : List Notification)
    (hf : u32TryFrom f = some cid)
    (hfind : st.buffer.find? (fun x => x.id == cid) = some r)
    (hhist : st.history = h0 :: hrest)
    (hcap : st.history.length = env.cap) :
    handle_msg env st (.signal (some "NotificationClosed") (some (f :: fs)))
      = .done ⟨eraseFirstP (fun x => x.id == r.id) st.buffer, hrest ++ [r],
          st.cached_icons, st.files⟩
        (some (hrest ++ [r]).reverse) :=
  closed_at_capacity_step env st f fs cid r h0 hrest hf hfind hhist hcap

/-- Witness for C9: capacity 1, one record in History, a pending record with
id 5 closed; the cache entry ("x", 1) and the file "x" survive eviction. -/
theorem eviction_cache_frame_witness :
    handle_msg (envCap 1) ⟨[⟨2, "", "", "", "", 1, 5⟩], [⟨1, "", "", "", "", 1, 4⟩],
        [("x", 1)], ["x"]⟩
        (.signal (some "NotificationClosed") (some [.vU32 5]))
      = .done ⟨[], [⟨2, "", "", "", "", 1, 5⟩], [("x", 1)], ["x"]⟩
          (some [⟨2, "", "", "", "", 1, 5⟩]) :=
  eviction_cache_frame (envCap 1)
    ⟨[⟨2, "", "", "", "", 1, 5⟩], [⟨1, "", "", "", "", 1, 4⟩], [("x", 1)], ["x"]⟩
    (.vU32 5) [] 5 ⟨2, "", "", "", "", 1, 5⟩ ⟨1, "", "", "", "", 1, 4⟩ [] rfl rfl rfl rfl

/-- C10: removing a history record whose icon path was never inserted in the
cache index (a themed-lookup icon) removes the record and emits a snapshot
while leaving the index and the stored files unchanged — no file is deleted. -/
theorem remove_themed_icon_frame (env : Env) (st : EngineState) (sn : Option Nat)
    (f : DVal) (fs : List DVal) (i : Nat) (r : Notification)
    (hf : u32TryFrom f = some i)
    (hfind : st.history.find? (fun x => x.id == i) = some r)
    (hicon : mapGet st.cached_icons r.icon = none) :
    handle_msg env st (.methodCall (some "org.dunstproject.cmd0")
        (some "NotificationRemoveFromHistory") sn (some (f :: fs)))
      = .done ⟨st.buffer, eraseFirstP (fun x => x.id == i) st.history,
          st.cached_icons, st.files⟩
        (some (eraseFirstP (fun x => x.id == i) st.history).reverse) := by
  have hrm := mapRemove_eq_of_get_none hicon
  simp [handle_msg, handleRemove, hf, hfind, hicon, hrm]

/-- Witness for C10: a history record with a themed icon path absent from
the index; removal keeps the index entry ("c/H.png", 1) and its file. -/
theorem remove_themed_icon_frame_witness :
    handle_msg (envCap 2) ⟨[], [⟨1, "a", "s", "b", "/theme/i.png", 1, 7⟩],
        [("c/H.png", 1)], ["c/H.png"]⟩
        (.methodCall (some "org.dunstproject.cmd0")
          (some "NotificationRemoveFromHistory") (some 90) (some [.vU32 7]))
      = .done ⟨[], [], [("c/H.png", 1)], ["c/H.png"]⟩ (some []) :=
  remove_themed_icon_frame (envCap 2)
    ⟨[], [⟨1, "a", "s", "b", "/theme/i.png", 1, 7⟩], [("c/H.png", 1)], ["c/H.png"]⟩
    (some 90) (.vU32 7) [] 7 ⟨1, "a", "s", "b", "/theme/i.png", 1, 7⟩ rfl rfl rfl

/-- Dropping the first match never lengthens a list. -/
theorem eraseFirstP_length_le (p : α → Bool) (l : List α) :
    (eraseFirstP p l).length ≤ l.length := by
  induction l with
  | nil => simp [eraseFirstP]
  | cons x xs ih =>
    rw [eraseFirstP]
    split
    · simp
    · simpa using Nat.succ_le_succ ih

/-- Create events leave History untouched (done outcome). -/
theorem handleCreate_history_done (env : Env) (st : EngineState) (sn : Option Nat)
    (bf : Option (List DVal)) (st' : EngineState) (e : Option (List Notification)) :
    handleCreate env st sn bf = .done st' e → st'.history = st.history := by
  unfold handleCreate
  intro h
  repeat' split at h
  all_goals try simp_all
  all_goals (obtain ⟨h1, h2⟩ := h; subst h1; rfl)

/-- Create events leave History untouched (errored outcome). -/
theorem handleCreate_history_err (env : Env) (st : EngineState) (sn : Option Nat)
    (bf : Option (List DVal)) (st' : EngineState) :
    handleCreate env st sn bf = .errored st' → st'.history = st.history := by
  unfold handleCreate
  intro h
  repeat' split at h
  all_goals try simp_all
  all_goals (subst h; rfl)

/-- Method returns leave History untouched. -/
theorem handleReturn_history_done (st : EngineState) (rs : Option Nat)
    (bf : Option (List DVal)) (st' : EngineState) (e : Option (List Notification)) :
    handleReturn st rs bf = .done st' e → st'.history = st.history := by
  unfold handleReturn
  intro h
  repeat' split at h
  all_goals try simp_all
  all_goals (obtain ⟨h1, h2⟩ := h; subst h1; rfl)

/-- Method returns never return an event error. -/
theorem handleReturn_no_err (st : EngineState) (rs : Option Nat)
    (bf : Option (List DVal)) (st' : EngineState) :
    handleReturn st rs bf = .errored st' → False := by
  unfold handleReturn
  intro h
  repeat' split at h
  all_goals simp_all

/-- Remove-from-history never lengthens History (done outcome). -/
theorem handleRemove_history_done (st : EngineState) (bf : Option (List DVal))
    (st' : EngineState) (e : Option (List Notification)) :
    handleRemove st bf = .done st' e → st'.history.length ≤ st.history.length := by
  unfold handleRemove
  intro h
  repeat' split at h
  all_goals try simp_all
  all_goals
    (obtain ⟨h1, h2⟩ := h
     subst h1
     simpa using eraseFirstP_length_le _ _)

/-- Remove-from-history event errors leave the state unchanged. -/
theorem handleRemove_err (st : EngineState) (bf : Option (List DVal))
    (st' : EngineState) :
    handleRemove st bf = .errored st' → st' = st := by
  unfold handleRemove
  intro h
  repeat' split at h
  all_goals simp_all

/-- Clear-history empties History. -/
theorem handleClear_history_done (st : EngineState) (st' : EngineState)
    (e : Option (List Notification)) :
    handleClear st = .done st' e → st'.history = [] := by
  intro h
  unfold handleClear at h
  rw [StepResult.done.injEq] at h
  obtain ⟨h1, h2⟩ := h
  subst h1
  rfl

/-- Clear-history never returns an event error. -/
theorem handleClear_no_err (st : EngineState) (st' : EngineState) :
    handleClear st = .errored st' → False := by
  intro h
  unfold handleClear at h
  simp_all

/-- Closes preserve the History bound. -/
theorem handleClosed_history_bound (env : Env) (st : EngineState)
    (mem : Option String) (bf : Option (List DVal)) (st' : EngineState)
    (e : Option (List Notification)) (hlen : st.history.length ≤ env.cap) :
    handleClosed env st mem bf = .done st' e → st'.history.length ≤ env.cap := by
  unfold handleClosed
  intro h
  repeat' split at h
  all_goals try simp_all
  all_goals
    (obtain ⟨h1, h2⟩ := h
     subst h1
     simp_all
     try omega)

/-- Closes never return an event error. -/
theorem handleClosed_no_err (env : Env) (st : EngineState) (mem : Option String)
    (bf : Option (List DVal)) (st' : EngineState) :
    handleClosed env st mem bf = .errored st' → False := by
  unfold handleClosed
  intro h
  repeat' split at h
  all_goals simp_all

/-- One handler step preserves the History bound, on both surviving
outcomes. -/
theorem step_history_bound (env : Env) (st : EngineState) (m : Msg)
    (hlen : st.history.length ≤ env.cap) :
    (∀ st' e, handle_msg env st m = .done st' e → st'.history.length ≤ env.cap)
    ∧ (∀ st', handle_msg env st m = .errored st' → st'.history.length ≤ env.cap) := by
  constructor
  · intro st' e h
    cases m with
    | methodCall iface mem sn bf =>
      unfold handle_msg at h
      repeat' split at h
      all_goals first
        | (rw [handleCreate_history_done _ _ _ _ _ _ h]; exact hlen)
        | exact le_trans (handleRemove_history_done _ _ _ _ h) hlen
        | (rw [handleClear_history_done _ _ _ h]; simp)
        | simp_all
    | methodReturn rs bf =>
      rw [handleReturn_history_done _ _ _ _ _ h]; exact hlen
    | signal mem bf => exact handleClosed_history_bound _ _ _ _ _ _ hlen h
    | otherKind =>
      rw [handle_msg] at h
      rw [StepResult.done.injEq] at h
      obtain ⟨h1, h2⟩ := h
      subst h1
      exact hlen
  · intro st' h
    cases m with
    | methodCall iface mem sn bf =>
      unfold handle_msg at h
      repeat' split at h
      all_goals first
        | (rw [handleCreate_history_err _ _ _ _ _ h]; exact hlen)
        | (rw [handleRemove_err _ _ _ h]; exact hlen)
        | exact (handleClear_no_err _ _ h).elim
        | simp_all
    | methodReturn rs bf => exact (handleReturn_no_err _ _ _ _ h).elim
    | signal mem bf => exact (handleClosed_no_err _ _ _ _ _ h).elim
    | otherKind => rw [handle_msg] at h; simp_all
  
/-- Every state reached by the event loop keeps the History bound. -/
theorem runStates_history_bound (env : Env) (st : EngineState) (msgs : List Msg)
    (hlen : st.history.length ≤ env.cap) :
    ∀ s ∈ runStates env st msgs, s.history.length ≤ env.cap := by
  induction msgs generalizing st with
  | nil => simp [runStates]
  | cons m rest ih =>
    intro s hs
    rw [runStates] at hs
    cases hm : handle_msg env st m with
    | panicked => rw [hm] at hs; simp at hs
    | errored st' =>
      rw [hm] at hs
      have hb := (step_history_bound env st m hlen).2 st' hm
      rcases List.mem_cons.mp hs with h | h
      · subst h; exact hb
      · exact ih st' hb s h
    | done st' e =>
      rw [hm] at hs
      have hb := (step_history_bound env st m hlen).1 st' e hm
      rcases List.mem_cons.mp hs with h | h
      · subst h; exact hb
      · exact ih st' hb s h

/-- C4: with configured capacity N ≥ 1, every state the event loop reaches
satisfies len(History) ≤ N; and a close that finalizes a record while
History holds exactly N records first evicts the head of History — the
record that arrived earliest, since finalized records are appended at the
tail — and then appends the new record (strict FIFO eviction). -/
theorem history_bound_fifo (env : Env) (st : EngineState) (msgs : List Msg)
    (_hcap : 1 ≤ env.cap) (hlen : st.history.length ≤ env.cap) :
    (∀ s ∈ runStates env st msgs, s.history.length ≤ env.cap)
    ∧ (∀ f fs cid r h0 hrest, u32TryFrom f = some cid →
        st.buffer.find? (fun x => x.id == cid) = some r →
        st.history = h0 :: hrest →
        st.history.length = env.cap →
        handle_msg env st (.signal (some "NotificationClosed") (some (f :: fs)))
          = .done ⟨eraseFirstP (fun x => x.id == r.id) st.buffer, hrest ++ [r],
              st.cached_icons, st.files⟩
            (some (hrest ++ [r]).reverse)) := by
  constructor
  · exact runStates_history_bound env st msgs hlen
  · intro f fs cid r h0 hrest hf hfind hhist hc
    exact closed_at_capacity_step env st f fs cid r h0 hrest hf hfind hhist hc

/-- Witness for C4: capacity 1, History full with one record, a pending
record with id 5 closed: the reached state still has length 1, and the step
evicts the old head and appends the new record. -/
theorem history_bound_fifo_witness :
    ((⟨[], [⟨2, "", "", "", "", 1, 5⟩], [], []⟩ : EngineState).history.length ≤ 1)
    ∧ handle_msg (envCap 1) ⟨[⟨2, "", "", "", "", 1, 5⟩], [⟨1, "", "", "", "", 1, 4⟩], [], []⟩
        (.signal (some "NotificationClosed") (some [.vU32 5]))
      = .done ⟨[], [⟨2, "", "", "", "", 1, 5⟩], [], []⟩ (some [⟨2, "", "", "", "", 1, 5⟩]) :=
  ⟨(history_bound_fifo (envCap 1)
      ⟨[⟨2, "", "", "", "", 1, 5⟩], [⟨1, "", "", "", "", 1, 4⟩], [], []⟩
      [closedMsg 5] (by decide) (by decide)).1
      ⟨[], [⟨2, "", "", "", "", 1, 5⟩], [], []⟩ (by decide),
   (history_bound_fifo (envCap 1)
      ⟨[⟨2, "", "", "", "", 1, 5⟩], [⟨1, "", "", "", "", 1, 4⟩], [], []⟩
      [closedMsg 5] (by decide) (by decide)).2
      (.vU32 5) [] 5 ⟨2, "", "", "", "", 1, 5⟩ ⟨1, "", "", "", "", 1, 4⟩ [] rfl rfl rfl rfl⟩

/-- Unfolding: run of the empty message list. -/
theorem runMsgs_nil (env : Env) (st : EngineState) :
    runMsgs env st [] = .finished st [] := rfl

/-- Unfolding: a silent successful step. -/
theorem runMsgs_cons_done_none {env : Env} {st : EngineState} {m : Msg}
    {st' : EngineState} {rest : List Msg}
    (h : handle_msg env st m = .done st' none) :
    runMsgs env st (m :: rest) = runMsgs env st' rest := by
  rw [runMsgs, h]
  cases hr : runMsgs env st' rest <;> simp [hr]

/-- Unfolding: a successful step that prints a snapshot. -/
theorem runMsgs_cons_done_some {env : Env} {st : EngineState} {m : Msg}
    {st' : EngineState} {em : List Notification} {rest : List Msg}
    (h : handle_msg env st m = .done st' (some em)) :
    runMsgs env st (m :: rest)
      = match runMsgs env st' rest with
        | .finished s es => .finished s (em :: es)
        | .panicked s es => .panicked s (em :: es) := by
  rw [runMsgs, h]
  cases hr : runMsgs env st' rest <;> simp [hr]

/-- A themed-lookup create (hints not a dict) appends one pending record
with the create's fields, id 0 and urgency 1, and touches nothing else. -/
theorem handle_notify_step (env : Env) (st : EngineState) (S : Nat)
    (an ic sm bd : String) :
    handle_msg env st (notifyMsg S an ic sm bd)
      = .done { st with
          buffer := st.buffer ++ [⟨S, an, sm, bd, env.lookup_icon ic, 1, 0⟩] }
          none := by
  simp [handle_msg, notifyMsg, handleCreate, resolveIcon, extractUrgency,
    stringTryFrom, List.getD_cons_zero, List.getD_cons_succ]

/-- Closes carrying a nonzero id skip an id-0 pending record: the whole run
of such closes is a silent no-op. -/
theorem closed_nonzero_skip (env : Env) (st : EngineState) (r : Notification)
    (hb : st.buffer = [r]) (hid : r.id = 0) (closes : List Nat)
    (hnz : ∀ j ∈ closes, ¬ j = 0) :
    runMsgs env st (closes.map closedMsg) = .finished st [] := by
  induction closes with
  | nil => rfl
  | cons j rest ih =>
    have hj : ¬ j = 0 := hnz j (List.mem_cons_self _ _)
    have hbe : ((0 : Nat) == j) = false := by
      rw [beq_eq_false_iff_ne]; omega
    have hfind : List.find? (fun x => x.id == j) [r] = none := by
      simp [List.find?, hid, hbe]
    have hstep : handle_msg env st (closedMsg j) = .done st none := by
      simp [handle_msg, closedMsg, handleClosed, hb, u32TryFrom, hfind]
    rw [List.map_cons, runMsgs_cons_done_none hstep]
    exact ih (fun j' hj' => hnz j' (List.mem_cons_of_mem _ hj'))

/-- C2 amended: starting from the empty state, a create with serial S, a
return with reply-target S carrying id I and a close carrying I yield
exactly one History record with the create's fields and id I; with the
return omitted the record stays pending with id 0 and no close carrying a
NONZERO id can ever move it into History.  (A close carrying id 0 does move
it — see the counterexample theorem.) -/
theorem correlation_lifecycle (env : Env) (S I : Nat) (an ic sm bd : String)
    (closes : List Nat) (hcap : 1 ≤ env.cap) (hnz : ∀ j ∈ closes, ¬ j = 0) :
    runMsgs env initState [notifyMsg S an ic sm bd, returnMsg S I, closedMsg I]
      = .finished ⟨[], [⟨S, an, sm, bd, env.lookup_icon ic, 1, I⟩], [], []⟩
          [[⟨S, an, sm, bd, env.lookup_icon ic, 1, I⟩]]
    ∧ runMsgs env initState (notifyMsg S an ic sm bd :: closes.map closedMsg)
      = .finished ⟨[⟨S, an, sm, bd, env.lookup_icon ic, 1, 0⟩], [], [], []⟩ [] := by
  have h1 : handle_msg env initState (notifyMsg S an ic sm bd)
      = .done ⟨[⟨S, an, sm, bd, env.lookup_icon ic, 1, 0⟩], [], [], []⟩ none := by
    simpa [initState] using handle_notify_step env initState S an ic sm bd
  constructor
  · have h2 : handle_msg env ⟨[⟨S, an, sm, bd, env.lookup_icon ic, 1, 0⟩], [], [], []⟩
        (returnMsg S I)
        = .done ⟨[⟨S, an, sm, bd, env.lookup_icon ic, 1, I⟩], [], [], []⟩ none := by
      simp [handle_msg, returnMsg, handleReturn, updateFirst, u32TryFrom]
    have h3 : handle_msg env ⟨[⟨S, an, sm, bd, env.lookup_icon ic, 1, I⟩], [], [], []⟩
        (closedMsg I)
        = .done ⟨[], [⟨S, an, sm, bd, env.lookup_icon ic, 1, I⟩], [], []⟩
            (some [⟨S, an, sm, bd, env.lookup_icon ic, 1, I⟩]) := by
      have hne : ((0 : Nat) == env.cap) = false := by
        rw [beq_eq_false_iff_ne]; omega
      simp [handle_msg, closedMsg, handleClosed, eraseFirstP, u32TryFrom, hne]
    rw [runMsgs_cons_done_none h1, runMsgs_cons_done_none h2,
      runMsgs_cons_done_some h3, runMsgs_nil]
  · rw [runMsgs_cons_done_none h1]
    exact closed_nonzero_skip env _ _ rfl rfl closes hnz

/-- Witness for C2 amended: serial 1, id 5, one non-matching close (id 7). -/
theorem correlation_lifecycle_witness :
    runMsgs (envCap 1) initState [notifyMsg 1 "a" "n" "s" "b", returnMsg 1 5, closedMsg 5]
      = .finished ⟨[], [⟨1, "a", "s", "b", "", 1, 5⟩], [], []⟩
          [[⟨1, "a", "s", "b", "", 1, 5⟩]]
    ∧ runMsgs (envCap 1) initState [notifyMsg 1 "a" "n" "s" "b", closedMsg 7]
      = .finished ⟨[⟨1, "a", "s", "b", "", 1, 0⟩], [], [], []⟩ [] :=
  ⟨(correlation_lifecycle (envCap 1) 1 5 "a" "n" "s" "b" [7] (by decide)
      (by decide)).1,
   (correlation_lifecycle (envCap 1) 1 5 "a" "n" "s" "b" [7] (by decide)
      (by decide)).2⟩

/-- C2 counterexample: with the return omitted the pending record keeps
id 0, but a NotificationClosed signal carrying id 0 matches it and moves it
into History — refuting "no closed signal can ever move it into History". -/
theorem correlation_closed_zero_cex :
    runMsgs (envCap 1) initState [notifyMsg 1 "a" "n" "s" "b", closedMsg 0]
      = .finished ⟨[], [⟨1, "a", "s", "b", "", 1, 0⟩], [], []⟩
          [[⟨1, "a", "s", "b", "", 1, 0⟩]] := rfl

/-- C3 counterexample: a remove-from-history call whose id (5) matches no
History record does not produce a reported, event-local error (`errored`):
the `find(..).unwrap()` on line 149 panics, so the process terminates — the
run result is `panicked` and the following create event is never processed,
refuting "the engine continues processing subsequent events". -/
theorem remove_missing_id_cex :
    handle_msg (envCap 2) initState (removeMsg 5) = .panicked
    ∧ runMsgs (envCap 2) initState [removeMsg 5, notifyMsg 1 "a" "n" "s" "b"]
      = .panicked initState []
    ∧ StepResult.panicked ≠ .errored initState :=
  ⟨rfl, rfl, by simp⟩

/-- C3 amended: a remove-from-history event whose id matches no History
record makes the handler panic (process-fatal, not event-fatal): the state
is unchanged at the point of the panic, nothing is emitted, and no later
event of the run is processed. -/
theorem remove_missing_id_panics (env : Env) (st : EngineState) (sn : Option Nat)
    (f : DVal) (fs : List DVal) (i : Nat) (rest : List Msg)
    (hf : u32TryFrom f = some i)
    (hfind : st.history.find? (fun x => x.id == i) = none) :
    handle_msg env st (.methodCall (some "org.dunstproject.cmd0")
        (some "NotificationRemoveFromHistory") sn (some (f :: fs))) = .panicked
    ∧ runMsgs env st ((.methodCall (some "org.dunstproject.cmd0")
        (some "NotificationRemoveFromHistory") sn (some (f :: fs))) :: rest)
      = .panicked st [] := by
  have h1 : handle_msg env st (.methodCall (some "org.dunstproject.cmd0")
      (some "NotificationRemoveFromHistory") sn (some (f :: fs))) = .panicked := by
    simp [handle_msg, handleRemove, hf, hfind]
  exact ⟨h1, by rw [runMsgs, h1]⟩

/-- Witness for C3 amended at a concrete input: empty history, remove id 6. -/
theorem remove_missing_id_panics_witness :
    handle_msg (envCap 2) initState (removeMsg 6) = .panicked
    ∧ runMsgs (envCap 2) initState [removeMsg 6] = .panicked initState [] :=
  remove_missing_id_panics (envCap 2) initState (some 90) (.vU32 6) [] 6 [] rfl rfl

/-- C5 counterexample: a create event whose hints dict maps "urgency" to a
string (an unexpected type) is aborted as a whole by
`val.get::<str, u8>("urgency")?` — no record is built, refuting "the record
is still built with the documented defaults and the event is not aborted". -/
theorem create_ill_typed_urgency_cex :
    handle_msg (envCap 3) initState
        (.methodCall (some "org.freedesktop.Notifications") (some "Notify") (some 1)
          (some [.vStr "app", .vU32 0, .vStr "ic", .vStr "sum", .vStr "bod", .vOther,
            .vDict [("urgency", .vStr "high")], .vI32 0]))
      = .errored initState
    ∧ initState.buffer = [] := ⟨rfl, rfl⟩

/-- C5 amended: on a full-shape create event with a serial, text fields of
unexpected type default to "" and the urgency defaults to 1 whenever the
hints argument is not a dict or lacks both the "urgency" and "image-data"
keys, and the event is not aborted; but a hints dict whose "urgency" value
is of unexpected type aborts the whole event (state unchanged). -/
theorem create_defaults (env : Env) (st : EngineState) (mem : Option String)
    (sn : Nat) (f0 f1 f2 f3 f4 f5 f6 f7 : DVal)
    (h6 : ∀ entries, f6 = .vDict entries →
      dictGetStruct entries "image-data" = .ok none
      ∧ dictGetU8 entries "urgency" = .ok none) :
    handle_msg env st (.methodCall (some "org.freedesktop.Notifications") mem (some sn)
        (some [f0, f1, f2, f3, f4, f5, f6, f7]))
      = .done { st with buffer := st.buffer ++ [⟨sn,
          (stringTryFrom f0).getD "", (stringTryFrom f3).getD "",
          (stringTryFrom f4).getD "",
          env.lookup_icon ((stringTryFrom f2).getD ""), 1, 0⟩] } none
    ∧ ∀ entries, dictGetStruct entries "image-data" = .ok none →
        dictGetU8 entries "urgency" = .error () →
        handle_msg env st (.methodCall (some "org.freedesktop.Notifications") mem
            (some sn) (some [f0, f1, f2, f3, f4, f5, .vDict entries, f7]))
          = .errored st := by
  constructor
  · cases f6
    case vDict entries =>
      obtain ⟨hi, hu⟩ := h6 entries rfl
      simp [handle_msg, handleCreate, resolveIcon, extractUrgency,
        List.getD_cons_zero, List.getD_cons_succ, hi, hu]
    all_goals
      simp [handle_msg, handleCreate, resolveIcon, extractUrgency,
        List.getD_cons_zero, List.getD_cons_succ]
  · intro entries hi hu
    simp [handle_msg, handleCreate, resolveIcon, extractUrgency,
      List.getD_cons_zero, List.getD_cons_succ, hi, hu]

/-- Witness for C5 amended: every text field ill-typed, hints not a dict —
the record gets all defaults; the same event with an ill-typed urgency hint
is aborted. -/
theorem create_defaults_witness :
    handle_msg (envCap 3) initState
        (.methodCall (some "org.freedesktop.Notifications") (some "Notify") (some 1)
          (some [.vU32 7, .vU32 0, .vOther, .vBool true, .vOther, .vOther, .vOther,
            .vI32 0]))
      = .done ⟨[⟨1, "", "", "", "", 1, 0⟩], [], [], []⟩ none
    ∧ handle_msg (envCap 3) initState
        (.methodCall (some "org.freedesktop.Notifications") (some "Notify") (some 1)
          (some [.vU32 7, .vU32 0, .vOther, .vBool true, .vOther, .vOther,
            .vDict [("urgency", .vStr "high")], .vI32 0]))
      = .errored initState :=
  ⟨(create_defaults (envCap 3) initState (some "Notify") 1 (.vU32 7) (.vU32 0)
      .vOther (.vBool true) .vOther .vOther .vOther (.vI32 0)
      (fun _ h => nomatch h)).1,
   (create_defaults (envCap 3) initState (some "Notify") 1 (.vU32 7) (.vU32 0)
      .vOther (.vBool true) .vOther .vOther .vOther (.vI32 0)
      (fun _ h => nomatch h)).2 [("urgency", .vStr "high")] rfl rfl⟩

/-- C1, evaluated at the failing input (store the same raw bytes twice, then
release twice via remove-from-history).  Storing twice does return the same
path "c/H.png" with reference count 2 (first conjunct).  But the first
release both decrements the count to 1 AND removes the index entry (the
unconditional `cached_icons.remove` on line 164), leaving the file on disk
with an empty index (second conjunct) — the claim expected the entry to
remain with count 1.  The second release then finds no index entry and
deletes nothing: the file "c/H.png" is never removed (third conjunct) — the
claim expected the file and entry to be gone. -/
theorem icon_refcount_release_bug :
    runMsgs (envCap 2) initState
        [notifyRawMsg 1 "a" "n" "s" "b" [1, 2, 3], returnMsg 1 10,
         notifyRawMsg 2 "a" "n" "s" "b" [1, 2, 3], returnMsg 2 11,
         closedMsg 10, closedMsg 11]
      = .finished ⟨[], [⟨1, "a", "s", "b", "c/H.png", 1, 10⟩,
            ⟨2, "a", "s", "b", "c/H.png", 1, 11⟩],
          [("c/H.png", 2)], ["c/H.png"]⟩
          [[⟨1, "a", "s", "b", "c/H.png", 1, 10⟩],
           [⟨2, "a", "s", "b", "c/H.png", 1, 11⟩, ⟨1, "a", "s", "b", "c/H.png", 1, 10⟩]]
    ∧ runMsgs (envCap 2) initState
        [notifyRawMsg 1 "a" "n" "s" "b" [1, 2, 3], returnMsg 1 10,
         notifyRawMsg 2 "a" "n" "s" "b" [1, 2, 3], returnMsg 2 11,
         closedMsg 10, closedMsg 11, removeMsg 10]
      = .finished ⟨[], [⟨2, "a", "s", "b", "c/H.png", 1, 11⟩], [], ["c/H.png"]⟩
          [[⟨1, "a", "s", "b", "c/H.png", 1, 10⟩],
           [⟨2, "a", "s", "b", "c/H.png", 1, 11⟩, ⟨1, "a", "s", "b", "c/H.png", 1, 10⟩],
           [⟨2, "a", "s", "b", "c/H.png", 1, 11⟩]]
    ∧ runMsgs (envCap 2) initState
        [notifyRawMsg 1 "a" "n" "s" "b" [1, 2, 3], returnMsg 1 10,
         notifyRawMsg 2 "a" "n" "s" "b" [1, 2, 3], returnMsg 2 11,
         closedMsg 10, closedMsg 11, removeMsg 10, removeMsg 11]
      = .finished ⟨[], [], [], ["c/H.png"]⟩
          [[⟨1, "a", "s", "b", "c/H.png", 1, 10⟩],
           [⟨2, "a", "s", "b", "c/H.png", 1, 11⟩, ⟨1, "a", "s", "b", "c/H.png", 1, 10⟩],
           [⟨2, "a", "s", "b", "c/H.png", 1, 11⟩], []] :=
  ⟨rfl, rfl, rfl⟩
